import Mathlib

/-
  Verification of the Pay2Win loyalty-points application.

  Part I embeds, directly from the front-end source, the pure decision
  functions the claims cite: the promotion status computation
  (`getPromotionStatus`, identical in all four pages that define it), the
  role-change permission check (`canPromoteTo`), the axios 401 response
  interceptor (`src/lib/api.ts`), and the token-expiry guard of
  `AuthContext.tsx`.

  Part II models the server-side points ledger and transaction state
  machine.  That code is not part of this repository (the repository is the
  browser client; only its callers appear under src/), so the ledger is
  modelled from the specification, operation by operation, and the claimed
  invariants are proved over every sequence of operations.
-/

namespace Pay2Win

/-- Role of an account, ascending privilege order per the spec. -/
inductive Role
  | regular
  | cashier
  | manager
  | superuser
deriving DecidableEq

/-- Numeric privilege rank of a role (regular < cashier < manager < superuser). -/
def Role.rank : Role → Nat
  | .regular => 0
  | .cashier => 1
  | .manager => 2
  | .superuser => 3

/-- Actor has cashier privileges or higher. -/
def cashierPlus (r : Role) : Bool := decide (1 ≤ r.rank)

/-- Actor has manager privileges or higher. -/
def managerPlus (r : Role) : Bool := decide (2 ≤ r.rank)

/-- Status label returned by the front end's getPromotionStatus. -/
inductive PromoStatus
  | unknown
  | expired
  | active
deriving DecidableEq

/-- Time window of a promotion; timestamps are integers (milliseconds), absent
fields are `none`, matching the optional startTime/endTime of the client's
Promotion type. -/
structure PromoWindow where
  startTime : Option Int
  endTime : Option Int
deriving DecidableEq

/-- Embeds getPromotionStatus as defined (identically) in
PromotionDetailPage, ManagerPromotionsPage, the user promotions page and the
manager promotion-detail page: Unknown when endTime is absent, Expired when
now is strictly past endTime, otherwise Active.  The source never reads
promo.startTime. -/
def getPromotionStatus (promo : PromoWindow) (now : Int) : PromoStatus :=
  match promo.endTime with
  | none => PromoStatus.unknown
  | some e => if now > e then PromoStatus.expired else PromoStatus.active

/-- The claim's activity predicate, written from the claim's words for
comparison with the source function: active iff startTime ≤ T ≤ endTime, or
T ≤ endTime when startTime is absent. -/
def claimActive (promo : PromoWindow) (now : Int) : Bool :=
  match promo.endTime with
  | none => false
  | some e =>
    match promo.startTime with
    | none => decide (now ≤ e)
    | some st => decide (st ≤ now) && decide (now ≤ e)

/-- Embeds canPromoteTo from the manager user-detail page: the actor
(currentUser) may set the target (user) to newRole iff the target is not the
actor; a superuser may pick any role other than the target's current role; a
manager may only swap a target between regular and cashier; everyone else is
denied. -/
def canPromoteTo (currentUserRole : Role) (currentUserId targetUserId : Nat)
    (targetUserRole newRole : Role) : Bool :=
  if targetUserId = currentUserId then false
  else if currentUserRole = Role.superuser then decide (newRole ≠ targetUserRole)
  else if currentUserRole = Role.manager then
    decide ((targetUserRole = Role.regular ∧ newRole = Role.cashier) ∨
      (targetUserRole = Role.cashier ∧ newRole = Role.regular))
  else false

/-- The error object carried by a failed axios response: the optional HTTP
status (error.response?.status) and an opaque payload standing for the rest
of the error object. -/
structure ApiError where
  status : Option Nat
  payload : String
deriving DecidableEq

/-- Browser-visible state the interceptor touches: the two localStorage keys
and window.location.pathname. -/
structure BrowserState where
  token : Option String
  tokenExpiry : Option String
  path : String
deriving DecidableEq

/-- Embeds the response-error interceptor of src/lib/api.ts (browser context,
window defined): on status 401 with current path not /login it removes the
token and tokenExpiry keys and navigates to /login, otherwise it changes
nothing; in both cases it returns Promise.reject(error) with the original
error, modelled as the second component. -/
def respInterceptorError (err : ApiError) (st : BrowserState) : BrowserState × ApiError :=
  if err.status = some 401 ∧ st.path ≠ "/login" then
    ({ token := none, tokenExpiry := none, path := "/login" }, err)
  else (st, err)

/-- Embeds isTokenExpired from AuthContext.tsx.  jwtDecode is a third-party
library; it is abstracted as decodeExp, returning the decoded exp claim in
seconds or none when decoding throws; the catch branch returns true.  The
comparison is decoded.exp * 1000 < Date.now(), with the current time nowMs
in milliseconds. -/
def isTokenExpired (decodeExp : String → Option Int) (nowMs : Int) (token : String) : Bool :=
  match decodeExp token with
  | none => true
  | some e => decide (e * 1000 < nowMs)

/-- Embeds the early-exit guard of fetchUser in AuthContext.tsx: the result
is true iff the function proceeds to the GET /users/me request (and hence to
setUser).  localStorage.getItem is none when the key is absent; a stored
empty string is falsy in the source's test, so it also exits early. -/
def fetchUserProceeds (decodeExp : String → Option Int) (nowMs : Int)
    (storedToken : Option String) : Bool :=
  match storedToken with
  | none => false
  | some tok => if tok = "" then false else ! isTokenExpired decodeExp nowMs tok

/-
  Part II: the points ledger and transaction state machine, modelled from
  the specification (the server enforcing it is not part of this
  repository; the client only calls it).
-/

/-- Error taxonomy of the spec's §7 relevant to the ledger operations. -/
inductive Err
  | validationError
  | notFoundError
  | conflictError
  | forbidden
deriving DecidableEq

/-- Transaction kinds of the ledger. -/
inductive TxType
  | purchase
  | transfer
  | redemption
  | adjustment
  | event
deriving DecidableEq

/-- Modelled from the spec: a ledger entry.  The transaction id is the index
at which the entry sits in the ledger map.  amount is the signed point delta
to the owner; a redemption request is recorded with negative amount and is
pending until processed. -/
structure Tx where
  owner : String
  type : TxType
  amount : Int
  spentCents : Option Nat
  relatedId : Option Nat
  suspicious : Bool
  processed : Bool
  createdBy : String
  processedBy : Option String
  remark : String
deriving DecidableEq

/-- Modelled from the spec: the Account Directory record for one utorid.
present is false for utorids with no registered account. -/
structure AccountInfo where
  present : Bool
  role : Role
  points : Int
  verified : Bool
  suspicious : Bool
deriving DecidableEq

/-- Modelled from the spec: the Event Budget Ledger record for one event id. -/
structure EventInfo where
  present : Bool
  pointsRemain : Int
  organizers : List String
  guests : List String
deriving DecidableEq

/-- The whole server state: account directory, event budgets, and the
transaction ledger as a map from transaction id to entry, with nextId the
first unused id. -/
structure St where
  acct : String → AccountInfo
  events : Nat → EventInfo
  txs : Nat → Option Tx
  nextId : Nat

/-- The initial account directory: empty apart from one bootstrap superuser
account (root) with zero points, from which all other accounts descend via
registration. -/
def bootAcct (root : String) : String → AccountInfo := fun u =>
  if u = root then ⟨true, Role.superuser, 0, true, false⟩
  else ⟨false, Role.regular, 0, false, false⟩

/-- The initial state: the bootstrap directory, no events, no transactions. -/
def initSt (root : String) : St :=
  { acct := bootAcct root
    events := fun _ => ⟨false, 0, [], []⟩
    txs := fun _ => none
    nextId := 0 }

/-- Appends one transaction at the next free id. -/
def appendTx (s : St) (t : Tx) : St :=
  { s with txs := Function.update s.txs s.nextId (some t), nextId := s.nextId + 1 }

/-- Adds d points to the account u (the only way any operation touches a
balance). -/
def creditPoints (s : St) (u : String) (d : Int) : St :=
  let a := s.acct u
  { s with acct := Function.update s.acct u { a with points := a.points + d } }

/-- Replaces the ledger entry at id i (used only for the two permitted
transitions: redemption pending→processed, purchase suspicious→approved). -/
def setTx (s : St) (i : Nat) (t : Tx) : St :=
  { s with txs := Function.update s.txs i (some t) }

/-- Sets the remaining budget of event eid. -/
def setRemain (s : St) (eid : Nat) (r : Int) : St :=
  let e := s.events eid
  { s with events := Function.update s.events eid { e with pointsRemain := r } }

/-- A ledger entry's effect is currently applied: purchases count unless
still suspicious, redemptions count only once processed, every other type
counts immediately. -/
def appliedTx (t : Tx) : Bool :=
  match t.type with
  | TxType.purchase => ! t.suspicious
  | TxType.redemption => t.processed
  | _ => true

/-- Contribution of one ledger slot to account u's applied sum. -/
def contrib (u : String) : Option Tx → Int
  | none => 0
  | some t => if t.owner = u ∧ appliedTx t = true then t.amount else 0

/-- Sum of the amounts of all transactions owned by u whose effect is
currently applied. -/
def appliedSum (s : St) (u : String) : Int :=
  ∑ i in Finset.range s.nextId, contrib u (s.txs i)

/-- The ledger slot at i holds an unprocessed redemption belonging to u. -/
def isPendingB (u : String) : Option Tx → Bool
  | none => false
  | some t => decide (t.owner = u) && decide (t.type = TxType.redemption) && ! t.processed

/-- Account u has at least one unprocessed redemption on the ledger. -/
def hasPending (s : St) (u : String) : Bool :=
  (List.range s.nextId).any fun i => isPendingB u (s.txs i)

/-- Modelled from the spec: createPurchase (§4.1).  basePoints is
floor(spentCents / 25) (one point per $0.25); bonus stands for the
nonnegative sum of the one-time and automatic promotion bonuses, whose
eligibility computation none of the claims under consideration depends on.
A purchase for a suspicious owner is recorded suspicious and not credited;
otherwise the amount is credited immediately. -/
def createPurchase (s : St) (actor owner : String) (spentCents : Nat) (bonus : Int) :
    Except Err St :=
  if ! cashierPlus (s.acct actor).role then Except.error Err.forbidden
  else if ! (s.acct owner).present then Except.error Err.notFoundError
  else if spentCents = 0 then Except.error Err.validationError
  else if bonus < 0 then Except.error Err.validationError
  else
    let amount : Int := ((spentCents / 25 : Nat) : Int) + bonus
    let t : Tx :=
      ⟨owner, TxType.purchase, amount, some spentCents, none,
        (s.acct owner).suspicious, false, actor, none, ""⟩
    if (s.acct owner).suspicious then Except.ok (appendTx s t)
    else Except.ok (creditPoints (appendTx s t) owner amount)

/-- Modelled from the spec: approveSuspicious (§4.1) — a manager+ turns a
suspicious purchase into a normal one and credits the deferred amount
exactly once; ConflictError if already approved. -/
def approveSuspicious (s : St) (actor : String) (id : Nat) : Except Err St :=
  if ! managerPlus (s.acct actor).role then Except.error Err.forbidden
  else
    match s.txs id with
    | none => Except.error Err.notFoundError
    | some t =>
      if t.type = TxType.purchase then
        if t.suspicious then
          Except.ok (creditPoints (setTx s id { t with suspicious := false }) t.owner t.amount)
        else Except.error Err.conflictError
      else Except.error Err.validationError

/-- Modelled from the spec: createAdjustment (§4.1) — manager+ directly
adds/subtracts a nonzero amount with a required remark, applied immediately
but never driving the balance below 0. -/
def createAdjustment (s : St) (actor owner : String) (amount : Int) (remark : String)
    (relatedId : Option Nat) : Except Err St :=
  if ! managerPlus (s.acct actor).role then Except.error Err.forbidden
  else if ! (s.acct owner).present then Except.error Err.notFoundError
  else if amount = 0 then Except.error Err.validationError
  else if remark = "" then Except.error Err.validationError
  else if (s.acct owner).points + amount < 0 then Except.error Err.validationError
  else
    let t : Tx :=
      ⟨owner, TxType.adjustment, amount, none, relatedId, false, false, actor, none, remark⟩
    Except.ok (creditPoints (appendTx s t) owner amount)

/-- Modelled from the spec: createTransfer (§4.1) — a verified sender moves
amount > 0 to a distinct recipient; ValidationError when the amount exceeds
the balance, the recipient is the sender, or the sender is unverified.  One
atomic step appends the debit entry, debits the sender, appends the credit
entry and credits the recipient; the two entries reference each other
through relatedId. -/
def createTransfer (s : St) (sender recipient : String) (amount : Int) (remark : String) :
    Except Err St :=
  if ! (s.acct sender).present then Except.error Err.notFoundError
  else if ! (s.acct recipient).present then Except.error Err.notFoundError
  else if ! (s.acct sender).verified then Except.error Err.validationError
  else if recipient = sender then Except.error Err.validationError
  else if amount ≤ 0 then Except.error Err.validationError
  else if (s.acct sender).points < amount then Except.error Err.validationError
  else
    let tdeb : Tx :=
      ⟨sender, TxType.transfer, -amount, none, some (s.nextId + 1), false, false,
        sender, none, remark⟩
    let tcred : Tx :=
      ⟨recipient, TxType.transfer, amount, none, some s.nextId, false, false,
        sender, none, remark⟩
    Except.ok (creditPoints
      (appendTx (creditPoints (appendTx s tdeb) sender (-amount)) tcred)
      recipient amount)

/-- Modelled from the spec: requestRedemption (§4.1) — a verified owner
records a pending redemption of amount > 0 not exceeding their balance;
ConflictError when an unprocessed redemption already exists (at most one
pending redemption per account); the balance is not yet decremented. -/
def requestRedemption (s : St) (owner : String) (amount : Int) (remark : String) :
    Except Err St :=
  if ! (s.acct owner).present then Except.error Err.notFoundError
  else if hasPending s owner then Except.error Err.conflictError
  else if ! (s.acct owner).verified then Except.error Err.validationError
  else if amount ≤ 0 then Except.error Err.validationError
  else if (s.acct owner).points < amount then Except.error Err.validationError
  else
    Except.ok (appendTx s
      ⟨owner, TxType.redemption, -amount, none, none, false, false, owner, none, remark⟩)

/-- Modelled from the spec: processRedemption (§4.1) — a cashier+ marks a
pending redemption processed exactly once, decrementing the owner's balance
by the redemption amount (the stored amount is negative); ConflictError if
already processed. -/
def processRedemption (s : St) (actor : String) (id : Nat) : Except Err St :=
  if ! cashierPlus (s.acct actor).role then Except.error Err.forbidden
  else
    match s.txs id with
    | none => Except.error Err.notFoundError
    | some t =>
      if t.type = TxType.redemption then
        if t.processed then Except.error Err.conflictError
        else
          Except.ok (creditPoints
            (setTx s id { t with processed := true, processedBy := some actor })
            t.owner t.amount)
      else Except.error Err.validationError

/-- The guests targeted by an event award: the chosen one, or all of them. -/
def awardGuests (s : St) (eid : Nat) (target : Option String) : List String :=
  match target with
  | some u => [u]
  | none => (s.events eid).guests

/-- Total cost of an event award: amount per targeted guest. -/
def awardCost (s : St) (eid : Nat) (amount : Int) (target : Option String) : Int :=
  amount * ((awardGuests s eid target).length : Int)

/-- One ledger entry for an event award to guest g. -/
def eventTx (actor remark : String) (amount : Int) (g : String) : Tx :=
  ⟨g, TxType.event, amount, none, none, false, false, actor, none, remark⟩

/-- Appends one event entry and credits its amount, for each guest in
order (all within a single atomic award step). -/
def creditGuests (actor remark : String) (amount : Int) : St → List String → St
  | s, [] => s
  | s, g :: gs =>
      creditGuests actor remark amount
        (creditPoints (appendTx s (eventTx actor remark amount g)) g amount) gs

/-- Modelled from the spec: awardEventPoints (§4.1) — an organizer of the
event or a manager+ awards amount > 0 per guest, to one chosen guest or to
all guests; ValidationError when the total cost exceeds the remaining
budget; on success the budget drops by the total cost and every targeted
guest is credited, all in one atomic step. -/
def awardEventPoints (s : St) (actor : String) (eid : Nat) (amount : Int)
    (target : Option String) (remark : String) : Except Err St :=
  if ! (s.events eid).present then Except.error Err.notFoundError
  else if ! (decide (actor ∈ (s.events eid).organizers) || managerPlus (s.acct actor).role) then
    Except.error Err.forbidden
  else if amount ≤ 0 then Except.error Err.validationError
  else
    match target with
    | some u =>
      if u ∈ (s.events eid).guests then
        if (s.events eid).pointsRemain < awardCost s eid amount (some u) then
          Except.error Err.validationError
        else
          Except.ok (creditGuests actor remark amount
            (setRemain s eid ((s.events eid).pointsRemain - awardCost s eid amount (some u)))
            (awardGuests s eid (some u)))
      else Except.error Err.notFoundError
    | none =>
      if (s.events eid).pointsRemain < awardCost s eid amount none then
        Except.error Err.validationError
      else
        Except.ok (creditGuests actor remark amount
          (setRemain s eid ((s.events eid).pointsRemain - awardCost s eid amount none))
          (awardGuests s eid none))

/-- Modelled from the spec: account registration (cashier+) — a fresh
account starts regular, 0 points, unverified, not suspicious. -/
def register (s : St) (actor newUtorid : String) : Except Err St :=
  if ! cashierPlus (s.acct actor).role then Except.error Err.forbidden
  else if (s.acct newUtorid).present then Except.error Err.validationError
  else Except.ok
    { s with acct := Function.update s.acct newUtorid ⟨true, Role.regular, 0, false, false⟩ }

/-- Modelled from the spec: account verification (§4.2) — any manager+ may
set verified to true; no actor may set it back to false (the attempt is
rejected without touching the state). -/
def setVerified (s : St) (actor target : String) (value : Bool) : Except Err St :=
  if ! managerPlus (s.acct actor).role then Except.error Err.forbidden
  else if value = false then Except.error Err.forbidden
  else if ! (s.acct target).present then Except.error Err.notFoundError
  else Except.ok
    { s with acct := Function.update s.acct target { s.acct target with verified := true } }

/-- Modelled from the spec: role change (§4.2) — no self-change (a
state-machine conflict per §7); a superuser picks any role other than the
target's current one; a manager only swaps regular and cashier. -/
def setRole (s : St) (actor target : String) (newRole : Role) : Except Err St :=
  if target = actor then Except.error Err.conflictError
  else if ! (s.acct target).present then Except.error Err.notFoundError
  else if (s.acct actor).role = Role.superuser then
    if newRole = (s.acct target).role then Except.error Err.validationError
    else Except.ok
      { s with acct := Function.update s.acct target { s.acct target with role := newRole } }
  else if (s.acct actor).role = Role.manager ∧
      (((s.acct target).role = Role.regular ∧ newRole = Role.cashier) ∨
       ((s.acct target).role = Role.cashier ∧ newRole = Role.regular)) then
    Except.ok
      { s with acct := Function.update s.acct target { s.acct target with role := newRole } }
  else Except.error Err.forbidden

/-- Modelled from the spec: suspicious flag on an account, togglable by
cashier+. -/
def setSuspicious (s : St) (actor target : String) (value : Bool) : Except Err St :=
  if ! cashierPlus (s.acct actor).role then Except.error Err.forbidden
  else if ! (s.acct target).present then Except.error Err.notFoundError
  else Except.ok
    { s with acct := Function.update s.acct target { s.acct target with suspicious := value } }

/-- Modelled from the spec: event creation (manager+) with a nonnegative
points budget; organizers and guests must be registered accounts. -/
def createEvent (s : St) (actor : String) (eid : Nat) (pointsTotal : Int)
    (organizers guests : List String) : Except Err St :=
  if ! managerPlus (s.acct actor).role then Except.error Err.forbidden
  else if (s.events eid).present then Except.error Err.validationError
  else if pointsTotal < 0 then Except.error Err.validationError
  else if ! (guests.all fun g => (s.acct g).present) then Except.error Err.validationError
  else Except.ok
    { s with events := Function.update s.events eid ⟨true, pointsTotal, organizers, guests⟩ }

/-- One request against the core: every mutating operation of the ledger,
directory and event budget. -/
inductive Op
  | register (actor newUtorid : String)
  | createPurchase (actor owner : String) (spentCents : Nat) (bonus : Int)
  | approveSuspicious (actor : String) (id : Nat)
  | createAdjustment (actor owner : String) (amount : Int) (remark : String)
      (relatedId : Option Nat)
  | createTransfer (sender recipient : String) (amount : Int) (remark : String)
  | requestRedemption (owner : String) (amount : Int) (remark : String)
  | processRedemption (actor : String) (id : Nat)
  | awardEventPoints (actor : String) (eid : Nat) (amount : Int) (target : Option String)
      (remark : String)
  | setVerified (actor target : String) (value : Bool)
  | setRole (actor target : String) (newRole : Role)
  | setSuspicious (actor target : String) (value : Bool)
  | createEvent (actor : String) (eid : Nat) (pointsTotal : Int)
      (organizers guests : List String)

/-- Dispatches one operation. -/
def step (s : St) : Op → Except Err St
  | .register a u => register s a u
  | .createPurchase a o c b => createPurchase s a o c b
  | .approveSuspicious a i => approveSuspicious s a i
  | .createAdjustment a o m r rel => createAdjustment s a o m r rel
  | .createTransfer a b m r => createTransfer s a b m r
  | .requestRedemption o m r => requestRedemption s o m r
  | .processRedemption a i => processRedemption s a i
  | .awardEventPoints a e m t r => awardEventPoints s a e m t r
  | .setVerified a t v => setVerified s a t v
  | .setRole a t r => setRole s a t r
  | .setSuspicious a t v => setSuspicious s a t v
  | .createEvent a e p og gs => createEvent s a e p og gs

/-- Runs one operation; a failing operation applies nothing (every mutation
fully applies or fully fails). -/
def runOp (s : St) (op : Op) : St :=
  match step s op with
  | Except.ok s2 => s2
  | Except.error _ => s

/-- Runs a sequence of operations in order. -/
def run (s : St) (ops : List Op) : St := ops.foldl runOp s

/-- Concrete directory used by the witnesses: a verified regular account
with 60 points, a cashier, and nothing else. -/
def acctW : String → AccountInfo := fun u =>
  if u = "alice" then ⟨true, Role.regular, 60, true, false⟩
  else if u = "cash" then ⟨true, Role.cashier, 0, false, false⟩
  else ⟨false, Role.regular, 0, false, false⟩

/-- A pending (unprocessed) redemption request of 50 points by alice. -/
def pendingRedTx : Tx :=
  ⟨"alice", TxType.redemption, -50, none, none, false, false, "alice", none, ""⟩

/-- A concrete state whose ledger holds exactly alice's pending redemption. -/
def stPend : St :=
  { acct := acctW
    events := fun _ => ⟨false, 0, [], []⟩
    txs := fun i => if i = 0 then some pendingRedTx else none
    nextId := 1 }

/-- The state after the cashier processes alice's pending redemption. -/
def stPendProcessed : St :=
  creditPoints
    (setTx stPend 0 { pendingRedTx with processed := true, processedBy := some "cash" })
    "alice" (-50)

/-- Concrete directory for the event-award witness: an organizer and two
guests. -/
def acctE : String → AccountInfo := fun u =>
  if u = "org" then ⟨true, Role.regular, 0, true, false⟩
  else if u = "g1" then ⟨true, Role.regular, 0, true, false⟩
  else if u = "g2" then ⟨true, Role.regular, 0, true, false⟩
  else ⟨false, Role.regular, 0, false, false⟩

/-- A concrete state with one event of budget 100, organizer org and guests
g1 and g2. -/
def stEvent : St :=
  { acct := acctE
    events := fun e => if e = 5 then ⟨true, 100, ["org"], ["g1", "g2"]⟩ else ⟨false, 0, [], []⟩
    txs := fun _ => none
    nextId := 0 }

/-- Concrete directory for the transfer witness: a verified sender with 100
points and a verified recipient with 7. -/
def acctT : String → AccountInfo := fun u =>
  if u = "sndr" then ⟨true, Role.regular, 100, true, false⟩
  else if u = "rcpt" then ⟨true, Role.regular, 7, true, false⟩
  else ⟨false, Role.regular, 0, false, false⟩

/-- A concrete state for the transfer witness. -/
def stTransfer : St :=
  { acct := acctT
    events := fun _ => ⟨false, 0, [], []⟩
    txs := fun _ => none
    nextId := 0 }

/-- Operation sequence for the verification-monotonicity witness: root
registers alice and verifies her. -/
def opsVerify : List Op := [Op.register "root" "alice", Op.setVerified "root" "alice" true]

/-- Follow-up operations that try (and fail) to unverify alice and then
change her role. -/
def opsAfter : List Op :=
  [Op.setVerified "root" "alice" false, Op.setRole "root" "alice" Role.cashier]

/-- The conservation invariant: every balance equals the applied sum of the
account's ledger entries. -/
def Conservation (s : St) : Prop := ∀ u, (s.acct u).points = appliedSum s u

/-- Ledger slots at or beyond nextId are empty. -/
def Bounded (s : St) : Prop := ∀ i, s.nextId ≤ i → s.txs i = none

/-- At most one unprocessed redemption per account: any two ledger slots
holding a pending redemption of the same account coincide. -/
def AtMostOnePending (s : St) : Prop :=
  ∀ u i j, i < s.nextId → j < s.nextId → isPendingB u (s.txs i) = true →
    isPendingB u (s.txs j) = true → i = j

/-- Verified accounts are registered. -/
def VerifiedPresent (s : St) : Prop :=
  ∀ u, (s.acct u).verified = true → (s.acct u).present = true

/-- Every ledger entry is owned by a registered account. -/
def OwnersPresent (s : St) : Prop :=
  ∀ i t, s.txs i = some t → (s.acct t.owner).present = true

/-- Guests of every event are registered accounts. -/
def GuestsPresent (s : St) : Prop :=
  ∀ eid, ∀ g ∈ (s.events eid).guests, (s.acct g).present = true

/-- All state invariants together. -/
def Inv (s : St) : Prop :=
  Conservation s ∧ Bounded s ∧ AtMostOnePending s ∧ VerifiedPresent s ∧
    OwnersPresent s ∧ GuestsPresent s

lemma creditPoints_txs (s : St) (u : String) (d : Int) : (creditPoints s u d).txs = s.txs := rfl

lemma creditPoints_nextId (s : St) (u : String) (d : Int) :
    (creditPoints s u d).nextId = s.nextId := rfl

lemma creditPoints_events (s : St) (u : String) (d : Int) :
    (creditPoints s u d).events = s.events := rfl

lemma appendTx_acct (s : St) (t : Tx) : (appendTx s t).acct = s.acct := rfl

lemma appendTx_events (s : St) (t : Tx) : (appendTx s t).events = s.events := rfl

lemma appendTx_nextId (s : St) (t : Tx) : (appendTx s t).nextId = s.nextId + 1 := rfl

lemma appendTx_txs (s : St) (t : Tx) :
    (appendTx s t).txs = Function.update s.txs s.nextId (some t) := rfl

lemma setTx_acct (s : St) (i : Nat) (t : Tx) : (setTx s i t).acct = s.acct := rfl

lemma setTx_events (s : St) (i : Nat) (t : Tx) : (setTx s i t).events = s.events := rfl

lemma setTx_nextId (s : St) (i : Nat) (t : Tx) : (setTx s i t).nextId = s.nextId := rfl

lemma setTx_txs (s : St) (i : Nat) (t : Tx) :
    (setTx s i t).txs = Function.update s.txs i (some t) := rfl

lemma setRemain_acct (s : St) (eid : Nat) (r : Int) : (setRemain s eid r).acct = s.acct := rfl

lemma setRemain_txs (s : St) (eid : Nat) (r : Int) : (setRemain s eid r).txs = s.txs := rfl

lemma setRemain_nextId (s : St) (eid : Nat) (r : Int) :
    (setRemain s eid r).nextId = s.nextId := rfl

lemma setRemain_guests (s : St) (eid : Nat) (r : Int) (eid2 : Nat) :
    ((setRemain s eid r).events eid2).guests = (s.events eid2).guests := by
  show ((Function.update s.events eid { s.events eid with pointsRemain := r }) eid2).guests
      = (s.events eid2).guests
  rw [Function.update_apply]
  by_cases h : eid2 = eid
  · subst h
    rw [if_pos rfl]
  · rw [if_neg h]

lemma setRemain_remain_self (s : St) (eid : Nat) (r : Int) :
    ((setRemain s eid r).events eid).pointsRemain = r := by
  show ((Function.update s.events eid { s.events eid with pointsRemain := r }) eid).pointsRemain
      = r
  rw [Function.update_same]

lemma creditPoints_points (s : St) (u : String) (d : Int) (v : String) :
    ((creditPoints s u d).acct v).points = (s.acct v).points + (if v = u then d else 0) := by
  show ((Function.update s.acct u { s.acct u with points := (s.acct u).points + d }) v).points
      = (s.acct v).points + (if v = u then d else 0)
  rw [Function.update_apply]
  by_cases h : v = u
  · subst h
    rw [if_pos rfl, if_pos rfl]
  · rw [if_neg h, if_neg h, add_zero]

lemma creditPoints_verified (s : St) (u : String) (d : Int) (v : String) :
    ((creditPoints s u d).acct v).verified = (s.acct v).verified := by
  show ((Function.update s.acct u { s.acct u with points := (s.acct u).points + d }) v).verified
      = (s.acct v).verified
  rw [Function.update_apply]
  by_cases h : v = u
  · subst h
    rw [if_pos rfl]
  · rw [if_neg h]

lemma creditPoints_present (s : St) (u : String) (d : Int) (v : String) :
    ((creditPoints s u d).acct v).present = (s.acct v).present := by
  show ((Function.update s.acct u { s.acct u with points := (s.acct u).points + d }) v).present
      = (s.acct v).present
  rw [Function.update_apply]
  by_cases h : v = u
  · subst h
    rw [if_pos rfl]
  · rw [if_neg h]

lemma contrib_unapplied (u : String) (t : Tx) (h : appliedTx t = false) :
    contrib u (some t) = 0 := by
  simp [contrib, h]

lemma contrib_applied (u : String) (t : Tx) (h : appliedTx t = true) :
    contrib u (some t) = if t.owner = u then t.amount else 0 := by
  simp [contrib, h]

lemma appliedSum_append (s : St) (t : Tx) (u : String) :
    appliedSum (appendTx s t) u = appliedSum s u + contrib u (some t) := by
  unfold appliedSum
  rw [appendTx_txs, appendTx_nextId, Finset.sum_range_succ, Function.update_same]
  congr 1
  apply Finset.sum_congr rfl
  intro i hi
  rw [Function.update_noteq (Nat.ne_of_lt (Finset.mem_range.mp hi))]

lemma appliedSum_setTx (s : St) (i : Nat) (t2 : Tx) (hi : i < s.nextId) (u : String) :
    appliedSum (setTx s i t2) u
      = appliedSum s u + contrib u (some t2) - contrib u (s.txs i) := by
  unfold appliedSum
  rw [setTx_txs, setTx_nextId]
  have h1 : ∀ j ∈ Finset.range s.nextId,
      contrib u (Function.update s.txs i (some t2) j)
        = contrib u (s.txs j)
          + (if j = i then contrib u (some t2) - contrib u (s.txs i) else 0) := by
    intro j _
    by_cases h : j = i
    · subst h
      rw [Function.update_same, if_pos rfl]
      ring
    · rw [Function.update_noteq h, if_neg h]
      ring
  rw [Finset.sum_congr rfl h1, Finset.sum_add_distrib,
    Finset.sum_ite_eq' (Finset.range s.nextId) i
      (fun _ => contrib u (some t2) - contrib u (s.txs i)),
    if_pos (Finset.mem_range.mpr hi)]
  ring

lemma appliedSum_creditPoints (s : St) (u : String) (d : Int) (v : String) :
    appliedSum (creditPoints s u d) v = appliedSum s v := rfl

lemma conservation_append_applied (s : St) (t : Tx) (hA : appliedTx t = true)
    (hC : Conservation s) :
    Conservation (creditPoints (appendTx s t) t.owner t.amount) := by
  intro u
  have h1 : ((creditPoints (appendTx s t) t.owner t.amount).acct u).points
      = (s.acct u).points + (if u = t.owner then t.amount else 0) :=
    creditPoints_points (appendTx s t) t.owner t.amount u
  rw [h1, appliedSum_creditPoints, appliedSum_append, contrib_applied _ _ hA, hC u]
  by_cases h : u = t.owner <;> simp [h, eq_comm]

lemma conservation_append_unapplied (s : St) (t : Tx) (hA : appliedTx t = false)
    (hC : Conservation s) : Conservation (appendTx s t) := by
  intro u
  rw [show ((appendTx s t).acct u).points = (s.acct u).points from rfl,
    appliedSum_append, contrib_unapplied _ _ hA, add_zero]
  exact hC u

lemma conservation_mutate_credit (s : St) (i : Nat) (t t2 : Tx)
    (hB : Bounded s) (hTx : s.txs i = some t)
    (hA : appliedTx t = false) (hA2 : appliedTx t2 = true)
    (hOwn : t2.owner = t.owner) (hAmt : t2.amount = t.amount)
    (hC : Conservation s) :
    Conservation (creditPoints (setTx s i t2) t.owner t.amount) := by
  have hi : i < s.nextId := by
    by_contra h
    rw [hB i (Nat.le_of_not_lt h)] at hTx
    cases hTx
  intro u
  have h1 : ((creditPoints (setTx s i t2) t.owner t.amount).acct u).points
      = (s.acct u).points + (if u = t.owner then t.amount else 0) :=
    creditPoints_points (setTx s i t2) t.owner t.amount u
  rw [h1, appliedSum_creditPoints, appliedSum_setTx s i t2 hi u, hTx,
    contrib_unapplied _ _ hA, contrib_applied _ _ hA2, hOwn, hAmt, hC u]
  by_cases h : u = t.owner <;> simp [h, eq_comm]

lemma bounded_append (s : St) (t : Tx) (hB : Bounded s) : Bounded (appendTx s t) := by
  intro i hi
  rw [appendTx_nextId] at hi
  rw [appendTx_txs, Function.update_noteq (by omega : i ≠ s.nextId)]
  exact hB i (by omega)

lemma bounded_setTx (s : St) (i : Nat) (t2 : Tx) (hi : i < s.nextId) (hB : Bounded s) :
    Bounded (setTx s i t2) := by
  intro j hj
  rw [setTx_nextId] at hj
  rw [setTx_txs, Function.update_noteq (by omega : j ≠ i)]
  exact hB j hj

lemma isPendingB_owner (v : String) (t : Tx) (h : isPendingB v (some t) = true) :
    t.owner = v := by
  simp only [isPendingB, Bool.and_eq_true, decide_eq_true_eq] at h
  exact h.1.1

lemma isPendingB_of_type (t : Tx) (hT : t.type ≠ TxType.redemption) (v : String) :
    isPendingB v (some t) = false := by
  simp [isPendingB, hT]

lemma hasPending_eq_false (s : St) (u : String) (h : hasPending s u = false) :
    ∀ i, i < s.nextId → isPendingB u (s.txs i) = false := by
  intro i hi
  by_contra hc
  rw [Bool.not_eq_false] at hc
  have ht : hasPending s u = true := by
    unfold hasPending
    rw [List.any_eq_true]
    exact ⟨i, List.mem_range.mpr hi, hc⟩
  rw [h] at ht
  cases ht

lemma hasPending_eq_true (s : St) (u : String) (i : Nat) (hi : i < s.nextId)
    (h : isPendingB u (s.txs i) = true) : hasPending s u = true := by
  unfold hasPending
  rw [List.any_eq_true]
  exact ⟨i, List.mem_range.mpr hi, h⟩

lemma atMostOne_append_notPending (s : St) (t : Tx)
    (hNP : ∀ v, isPendingB v (some t) = false)
    (hP : AtMostOnePending s) : AtMostOnePending (appendTx s t) := by
  intro v i j hi hj hpi hpj
  rw [appendTx_nextId] at hi hj
  rw [appendTx_txs] at hpi hpj
  by_cases hie : i = s.nextId
  · rw [hie, Function.update_same, hNP v] at hpi
    cases hpi
  by_cases hje : j = s.nextId
  · rw [hje, Function.update_same, hNP v] at hpj
    cases hpj
  rw [Function.update_noteq hie] at hpi
  rw [Function.update_noteq hje] at hpj
  exact hP v i j (by omega) (by omega) hpi hpj

lemma atMostOne_append_fresh (s : St) (t : Tx) (u : String) (hOwn : t.owner = u)
    (hNone : ∀ i, i < s.nextId → isPendingB u (s.txs i) = false)
    (hP : AtMostOnePending s) : AtMostOnePending (appendTx s t) := by
  intro v i j hi hj hpi hpj
  rw [appendTx_nextId] at hi hj
  rw [appendTx_txs] at hpi hpj
  by_cases hie : i = s.nextId <;> by_cases hje : j = s.nextId
  · rw [hie, hje]
  · rw [hie, Function.update_same] at hpi
    rw [Function.update_noteq hje] at hpj
    have hv : v = u := (isPendingB_owner v t hpi) ▸ hOwn
    subst hv
    rw [hNone j (by omega)] at hpj
    cases hpj
  · rw [hje, Function.update_same] at hpj
    rw [Function.update_noteq hie] at hpi
    have hv : v = u := (isPendingB_owner v t hpj) ▸ hOwn
    subst hv
    rw [hNone i (by omega)] at hpi
    cases hpi
  · rw [Function.update_noteq hie] at hpi
    rw [Function.update_noteq hje] at hpj
    exact hP v i j (by omega) (by omega) hpi hpj

lemma atMostOne_setTx_notPending (s : St) (i : Nat) (t2 : Tx)
    (hNP : ∀ v, isPendingB v (some t2) = false)
    (hP : AtMostOnePending s) : AtMostOnePending (setTx s i t2) := by
  intro v a b ha hb hpa hpb
  rw [setTx_nextId] at ha hb
  rw [setTx_txs] at hpa hpb
  by_cases hae : a = i
  · rw [hae, Function.update_same, hNP v] at hpa
    cases hpa
  by_cases hbe : b = i
  · rw [hbe, Function.update_same, hNP v] at hpb
    cases hpb
  rw [Function.update_noteq hae] at hpa
  rw [Function.update_noteq hbe] at hpb
  exact hP v a b ha hb hpa hpb

lemma inv_appendCredit (s : St) (t : Tx) (hA : appliedTx t = true)
    (hT : t.type ≠ TxType.redemption) (hPr : (s.acct t.owner).present = true)
    (h : Inv s) : Inv (creditPoints (appendTx s t) t.owner t.amount) := by
  obtain ⟨hC, hB, hP, hV, hO, hG⟩ := h
  refine ⟨conservation_append_applied s t hA hC, bounded_append s t hB,
    atMostOne_append_notPending s t (isPendingB_of_type t hT) hP, ?_, ?_, ?_⟩
  · intro u hu
    rw [creditPoints_verified] at hu
    rw [creditPoints_present]
    exact hV u hu
  · intro i ti hti
    rw [creditPoints_present]
    rw [show (creditPoints (appendTx s t) t.owner t.amount).txs
        = Function.update s.txs s.nextId (some t) from rfl] at hti
    by_cases hie : i = s.nextId
    · rw [hie, Function.update_same] at hti
      cases hti
      exact hPr
    · rw [Function.update_noteq hie] at hti
      exact hO i ti hti
  · intro eid g hg
    rw [creditPoints_present]
    exact hG eid g hg

lemma inv_append_unapplied (s : St) (t : Tx) (hA : appliedTx t = false)
    (hT : t.type ≠ TxType.redemption) (hPr : (s.acct t.owner).present = true)
    (h : Inv s) : Inv (appendTx s t) := by
  obtain ⟨hC, hB, hP, hV, hO, hG⟩ := h
  refine ⟨conservation_append_unapplied s t hA hC, bounded_append s t hB,
    atMostOne_append_notPending s t (isPendingB_of_type t hT) hP, hV, ?_, hG⟩
  intro i ti hti
  rw [appendTx_txs] at hti
  by_cases hie : i = s.nextId
  · rw [hie, Function.update_same] at hti
    cases hti
    exact hPr
  · rw [Function.update_noteq hie] at hti
    exact hO i ti hti

lemma inv_append_pending (s : St) (t : Tx) (hA : appliedTx t = false)
    (hPr : (s.acct t.owner).present = true)
    (hNoP : hasPending s t.owner = false)
    (h : Inv s) : Inv (appendTx s t) := by
  obtain ⟨hC, hB, hP, hV, hO, hG⟩ := h
  refine ⟨conservation_append_unapplied s t hA hC, bounded_append s t hB,
    atMostOne_append_fresh s t t.owner rfl (hasPending_eq_false s t.owner hNoP) hP, hV, ?_, hG⟩
  intro i ti hti
  rw [appendTx_txs] at hti
  by_cases hie : i = s.nextId
  · rw [hie, Function.update_same] at hti
    cases hti
    exact hPr
  · rw [Function.update_noteq hie] at hti
    exact hO i ti hti

lemma inv_mutate_credit (s : St) (i : Nat) (t t2 : Tx)
    (hTx : s.txs i = some t) (hA : appliedTx t = false) (hA2 : appliedTx t2 = true)
    (hOwn : t2.owner = t.owner) (hAmt : t2.amount = t.amount)
    (hNP : ∀ v, isPendingB v (some t2) = false)
    (h : Inv s) : Inv (creditPoints (setTx s i t2) t.owner t.amount) := by
  obtain ⟨hC, hB, hP, hV, hO, hG⟩ := h
  have hi : i < s.nextId := by
    by_contra hcon
    rw [hB i (Nat.le_of_not_lt hcon)] at hTx
    cases hTx
  refine ⟨conservation_mutate_credit s i t t2 hB hTx hA hA2 hOwn hAmt hC,
    bounded_setTx s i t2 hi hB, atMostOne_setTx_notPending s i t2 hNP hP, ?_, ?_, ?_⟩
  · intro u hu
    rw [creditPoints_verified] at hu
    rw [creditPoints_present]
    exact hV u hu
  · intro j tj htj
    rw [creditPoints_present]
    rw [show (creditPoints (setTx s i t2) t.owner t.amount).txs
        = Function.update s.txs i (some t2) from rfl] at htj
    by_cases hje : j = i
    · rw [hje, Function.update_same] at htj
      cases htj
      rw [hOwn]
      exact hO i t hTx
    · rw [Function.update_noteq hje] at htj
      exact hO j tj htj
  · intro eid g hg
    rw [creditPoints_present]
    exact hG eid g hg

lemma creditGuests_present (actor remark : String) (amount : Int) :
    ∀ (gs : List String) (s : St) (v : String),
      ((creditGuests actor remark amount s gs).acct v).present = (s.acct v).present := by
  intro gs
  induction gs with
  | nil =>
    intro s v
    rfl
  | cons g tl ih =>
    intro s v
    rw [show creditGuests actor remark amount s (g :: tl)
        = creditGuests actor remark amount
            (creditPoints (appendTx s (eventTx actor remark amount g)) g amount) tl from rfl,
      ih, creditPoints_present]
    rfl

lemma creditGuests_events (actor remark : String) (amount : Int) :
    ∀ (gs : List String) (s : St),
      (creditGuests actor remark amount s gs).events = s.events := by
  intro gs
  induction gs with
  | nil =>
    intro s
    rfl
  | cons g tl ih =>
    intro s
    rw [show creditGuests actor remark amount s (g :: tl)
        = creditGuests actor remark amount
            (creditPoints (appendTx s (eventTx actor remark amount g)) g amount) tl from rfl,
      ih]
    rfl

lemma inv_creditGuests (actor remark : String) (amount : Int) :
    ∀ (gs : List String) (s : St),
      (∀ g ∈ gs, (s.acct g).present = true) → Inv s →
      Inv (creditGuests actor remark amount s gs) := by
  intro gs
  induction gs with
  | nil =>
    intro s _ h
    exact h
  | cons g tl ih =>
    intro s hg h
    have h1 : Inv (creditPoints (appendTx s (eventTx actor remark amount g)) g amount) :=
      inv_appendCredit s (eventTx actor remark amount g) rfl
        (fun hc => TxType.noConfusion hc) (hg g (List.mem_cons_self g tl)) h
    apply ih
    · intro g2 hg2
      rw [creditPoints_present]
      exact hg g2 (List.mem_cons_of_mem g hg2)
    · exact h1

lemma inv_setRemain (s : St) (eid : Nat) (r : Int) (h : Inv s) : Inv (setRemain s eid r) := by
  obtain ⟨hC, hB, hP, hV, hO, hG⟩ := h
  refine ⟨hC, hB, hP, hV, hO, ?_⟩
  intro eid2 g hg
  rw [setRemain_guests] at hg
  rw [show (setRemain s eid r).acct = s.acct from rfl]
  exact hG eid2 g hg

lemma bool_eq_false (b : Bool) (h : ¬ (b = true)) : b = false := by
  cases b
  · rfl
  · exact absurd rfl h

lemma bool_of_not_not (b : Bool) (h : ¬ ((! b) = true)) : b = true := by
  cases b
  · exact absurd rfl h
  · rfl

/-- Sum of applied entries of an unregistered account is zero: no ledger
entry is owned by it. -/
lemma appliedSum_not_present (s : St) (w : String) (hO : OwnersPresent s)
    (hw : (s.acct w).present = false) : appliedSum s w = 0 := by
  unfold appliedSum
  apply Finset.sum_eq_zero
  intro i _
  cases hti : s.txs i with
  | none => rfl
  | some t =>
    rw [show contrib w (some t)
        = if t.owner = w ∧ appliedTx t = true then t.amount else 0 from rfl, if_neg]
    rintro ⟨h1, -⟩
    have h2 := hO i t hti
    rw [h1, hw] at h2
    cases h2

lemma inv_acctUpdate (s : St) (w : String) (a2 : AccountInfo)
    (hPts : Conservation s → OwnersPresent s → a2.points = appliedSum s w)
    (hVer : a2.verified = true → a2.present = true)
    (hPres : (s.acct w).present = true → a2.present = true)
    (h : Inv s) : Inv { s with acct := Function.update s.acct w a2 } := by
  obtain ⟨hC, hB, hP, hV, hO, hG⟩ := h
  refine ⟨?_, hB, hP, ?_, ?_, ?_⟩
  · intro u
    show (Function.update s.acct w a2 u).points = appliedSum s u
    rw [Function.update_apply]
    by_cases hu : u = w
    · subst hu
      rw [if_pos rfl]
      exact hPts hC hO
    · rw [if_neg hu]
      exact hC u
  · intro u hu
    show (Function.update s.acct w a2 u).present = true
    rw [Function.update_apply]
    rw [show ({ s with acct := Function.update s.acct w a2 } : St).acct u
        = Function.update s.acct w a2 u from rfl, Function.update_apply] at hu
    by_cases h2 : u = w
    · rw [if_pos h2] at hu
      rw [if_pos h2]
      exact hVer hu
    · rw [if_neg h2] at hu
      rw [if_neg h2]
      exact hV u hu
  · intro i t hti
    show (Function.update s.acct w a2 t.owner).present = true
    rw [Function.update_apply]
    by_cases h2 : t.owner = w
    · rw [if_pos h2]
      exact hPres (h2 ▸ hO i t hti)
    · rw [if_neg h2]
      exact hO i t hti
  · intro eid g hg
    show (Function.update s.acct w a2 g).present = true
    rw [Function.update_apply]
    by_cases h2 : g = w
    · rw [if_pos h2]
      exact hPres (h2 ▸ hG eid g hg)
    · rw [if_neg h2]
      exact hG eid g hg

/-- Every operation that succeeds preserves all the state invariants. -/
lemma inv_step (s : St) (op : Op) (s2 : St) (hs : step s op = Except.ok s2) (h : Inv s) :
    Inv s2 := by
  cases op with
  | register actor w =>
    simp only [step] at hs
    unfold register at hs
    split at hs
    · cases hs
    · split at hs
      · rename_i hPr
        cases hs
      · rename_i hPr
        cases hs
        have hw : (s.acct w).present = false := bool_eq_false _ hPr
        exact inv_acctUpdate s w ⟨true, Role.regular, 0, false, false⟩
          (fun _ hO => (appliedSum_not_present s w hO hw).symm)
          (fun _ => rfl) (fun _ => rfl) h
  | createPurchase actor owner c b =>
    simp only [step] at hs
    unfold createPurchase at hs
    split at hs
    · cases hs
    · split at hs
      · cases hs
      · rename_i hPr
        split at hs
        · cases hs
        · split at hs
          · cases hs
          · dsimp only [] at hs
            split at hs
            · rename_i hSusp
              cases hs
              apply inv_append_unapplied
              · show (! (s.acct owner).suspicious) = false
                rw [hSusp]
                rfl
              · exact fun hc => TxType.noConfusion hc
              · exact bool_of_not_not _ hPr
              · exact h
            · rename_i hSusp
              cases hs
              apply inv_appendCredit
              · show (! (s.acct owner).suspicious) = true
                rw [bool_eq_false _ hSusp]
                rfl
              · exact fun hc => TxType.noConfusion hc
              · exact bool_of_not_not _ hPr
              · exact h
  | approveSuspicious actor id =>
    simp only [step] at hs
    unfold approveSuspicious at hs
    split at hs
    · cases hs
    · split at hs
      · cases hs
      · rename_i t hTx
        split at hs
        · rename_i hTy
          split at hs
          · rename_i hSusp
            cases hs
            have hTy2 : ({ t with suspicious := false } : Tx).type = TxType.purchase := hTy
            apply inv_mutate_credit s id t { t with suspicious := false } hTx
            · show appliedTx t = false
              unfold appliedTx
              rw [hTy, hSusp]
              rfl
            · show appliedTx { t with suspicious := false } = true
              unfold appliedTx
              rw [hTy2]
              rfl
            · rfl
            · rfl
            · intro v
              apply isPendingB_of_type
              intro hc
              rw [hc] at hTy2
              cases hTy2
            · exact h
          · cases hs
        · cases hs
  | createAdjustment actor owner amount remark relatedId =>
    simp only [step] at hs
    unfold createAdjustment at hs
    split at hs
    · cases hs
    · split at hs
      · cases hs
      · rename_i hPr
        split at hs
        · cases hs
        · split at hs
          · cases hs
          · split at hs
            · cases hs
            · cases hs
              apply inv_appendCredit
              · rfl
              · exact fun hc => TxType.noConfusion hc
              · exact bool_of_not_not _ hPr
              · exact h
  | createTransfer sender recipient amount remark =>
    simp only [step] at hs
    unfold createTransfer at hs
    split at hs
    · cases hs
    · rename_i hPrS
      split at hs
      · cases hs
      · rename_i hPrR
        split at hs
        · cases hs
        · split at hs
          · cases hs
          · split at hs
            · cases hs
            · split at hs
              · cases hs
              · dsimp only [] at hs
                cases hs
                have h1 : Inv (creditPoints
                    (appendTx s ⟨sender, TxType.transfer, -amount, none, some (s.nextId + 1),
                      false, false, sender, none, remark⟩) sender (-amount)) := by
                  apply inv_appendCredit
                  · rfl
                  · exact fun hc => TxType.noConfusion hc
                  · exact bool_of_not_not _ hPrS
                  · exact h
                apply inv_appendCredit _
                  (⟨recipient, TxType.transfer, amount, none, some s.nextId,
                    false, false, sender, none, remark⟩ : Tx)
                · rfl
                · exact fun hc => TxType.noConfusion hc
                · show ((creditPoints (appendTx s _) sender (-amount)).acct recipient).present
                      = true
                  rw [creditPoints_present]
                  exact bool_of_not_not _ hPrR
                · exact h1
  | requestRedemption owner amount remark =>
    simp only [step] at hs
    unfold requestRedemption at hs
    split at hs
    · cases hs
    · rename_i hPr
      split at hs
      · cases hs
      · rename_i hPend
        split at hs
        · cases hs
        · split at hs
          · cases hs
          · split at hs
            · cases hs
            · cases hs
              apply inv_append_pending
              · rfl
              · exact bool_of_not_not _ hPr
              · exact bool_eq_false _ hPend
              · exact h
  | processRedemption actor id =>
    simp only [step] at hs
    unfold processRedemption at hs
    split at hs
    · cases hs
    · split at hs
      · cases hs
      · rename_i t hTx
        split at hs
        · rename_i hTy
          split at hs
          · cases hs
          · rename_i hProc
            cases hs
            have hTy2 : ({ t with processed := true, processedBy := some actor } : Tx).type
                = TxType.redemption := hTy
            apply inv_mutate_credit s id t
              { t with processed := true, processedBy := some actor } hTx
            · show appliedTx t = false
              unfold appliedTx
              rw [hTy]
              exact bool_eq_false _ hProc
            · show appliedTx { t with processed := true, processedBy := some actor } = true
              unfold appliedTx
              rw [hTy2]
            · rfl
            · rfl
            · intro v
              unfold isPendingB
              simp
            · exact h
        · cases hs
  | awardEventPoints actor eid amount target remark =>
    simp only [step] at hs
    unfold awardEventPoints at hs
    split at hs
    · cases hs
    · split at hs
      · cases hs
      · split at hs
        · cases hs
        · obtain ⟨hC, hB, hP, hV, hO, hG⟩ := h
          have hInv : Inv s := ⟨hC, hB, hP, hV, hO, hG⟩
          have key : ∀ (tg : Option String) (gs : List String),
              (∀ g ∈ gs, g ∈ (s.events eid).guests) →
              Inv (creditGuests actor remark amount
                (setRemain s eid ((s.events eid).pointsRemain - awardCost s eid amount tg))
                gs) := by
            intro tg gs hgs
            apply inv_creditGuests
            · intro g hg
              rw [setRemain_acct]
              exact hG eid g (hgs g hg)
            · exact inv_setRemain s eid _ hInv
          cases target with
          | some u =>
            have hs2 : (if u ∈ (s.events eid).guests then
                (if (s.events eid).pointsRemain < awardCost s eid amount (some u) then
                  (Except.error Err.validationError : Except Err St)
                else
                  Except.ok (creditGuests actor remark amount
                    (setRemain s eid
                      ((s.events eid).pointsRemain - awardCost s eid amount (some u)))
                    (awardGuests s eid (some u))))
              else Except.error Err.notFoundError) = Except.ok s2 := hs
            by_cases hMem : u ∈ (s.events eid).guests
            · rw [if_pos hMem] at hs2
              by_cases hCost :
                  (s.events eid).pointsRemain < awardCost s eid amount (some u)
              · rw [if_pos hCost] at hs2
                cases hs2
              · rw [if_neg hCost] at hs2
                cases hs2
                apply key (some u)
                intro g hg
                rw [show awardGuests s eid (some u) = [u] from rfl,
                  List.mem_singleton] at hg
                rw [hg]
                exact hMem
            · rw [if_neg hMem] at hs2
              cases hs2
          | none =>
            have hs2 : (if (s.events eid).pointsRemain < awardCost s eid amount none then
                (Except.error Err.validationError : Except Err St)
              else
                Except.ok (creditGuests actor remark amount
                  (setRemain s eid ((s.events eid).pointsRemain - awardCost s eid amount none))
                  (awardGuests s eid none))) = Except.ok s2 := hs
            by_cases hCost : (s.events eid).pointsRemain < awardCost s eid amount none
            · rw [if_pos hCost] at hs2
              cases hs2
            · rw [if_neg hCost] at hs2
              cases hs2
              apply key none
              intro g hg
              exact hg
  | setVerified actor target value =>
    simp only [step] at hs
    unfold setVerified at hs
    split at hs
    · cases hs
    · split at hs
      · cases hs
      · split at hs
        · cases hs
        · rename_i hPr
          cases hs
          exact inv_acctUpdate s target { s.acct target with verified := true }
            (fun hC _ => hC target)
            (fun _ => bool_of_not_not _ hPr)
            (fun hp => hp) h
  | setRole actor target newRole =>
    simp only [step] at hs
    unfold setRole at hs
    split at hs
    · cases hs
    · split at hs
      · cases hs
      · rename_i hPr
        split at hs
        · split at hs
          · cases hs
          · cases hs
            exact inv_acctUpdate s target { s.acct target with role := newRole }
              (fun hC _ => hC target)
              (fun hv => h.2.2.2.1 target hv)
              (fun hp => hp) h
        · split at hs
          · cases hs
            exact inv_acctUpdate s target { s.acct target with role := newRole }
              (fun hC _ => hC target)
              (fun hv => h.2.2.2.1 target hv)
              (fun hp => hp) h
          · cases hs
  | setSuspicious actor target value =>
    simp only [step] at hs
    unfold setSuspicious at hs
    split at hs
    · cases hs
    · split at hs
      · cases hs
      · cases hs
        exact inv_acctUpdate s target { s.acct target with suspicious := value }
          (fun hC _ => hC target)
          (fun hv => h.2.2.2.1 target hv)
          (fun hp => hp) h
  | createEvent actor eid pointsTotal og gs =>
    simp only [step] at hs
    unfold createEvent at hs
    split at hs
    · cases hs
    · split at hs
      · cases hs
      · split at hs
        · cases hs
        · split at hs
          · cases hs
          · rename_i hAll
            cases hs
            obtain ⟨hC, hB, hP, hV, hO, hG⟩ := h
            refine ⟨hC, hB, hP, hV, hO, ?_⟩
            intro eid2 g hg
            show (s.acct g).present = true
            rw [show (({ s with events := Function.update s.events eid ⟨true, pointsTotal, og, gs⟩ } : St).events eid2) = Function.update s.events eid ⟨true, pointsTotal, og, gs⟩ eid2 from rfl, Function.update_apply] at hg
            by_cases h2 : eid2 = eid
            · rw [if_pos h2] at hg
              have hAll2 := bool_of_not_not _ hAll
              rw [List.all_eq_true] at hAll2
              exact hAll2 g hg
            · rw [if_neg h2] at hg
              exact hG eid2 g hg

/-- The initial state satisfies every invariant. -/
lemma inv_init (root : String) : Inv (initSt root) := by
  refine ⟨?_, ?_, ?_, ?_, ?_, ?_⟩
  · intro u
    show (bootAcct root u).points = appliedSum (initSt root) u
    unfold appliedSum
    rw [show (initSt root).nextId = 0 from rfl, Finset.range_zero, Finset.sum_empty]
    unfold bootAcct
    by_cases h : u = root
    · rw [if_pos h]
    · rw [if_neg h]
  · intro i _
    rfl
  · intro u i j hi _ _ _
    exact absurd hi (Nat.not_lt_zero i)
  · intro u hu
    show (bootAcct root u).present = true
    have hu2 : (bootAcct root u).verified = true := hu
    unfold bootAcct at hu2 ⊢
    by_cases h : u = root
    · rw [if_pos h]
    · rw [if_neg h] at hu2
      cases hu2
  · intro i t hti
    cases hti
  · intro eid g hg
    exact absurd hg (List.not_mem_nil g)

/-- Running one operation preserves the invariants (failures change
nothing). -/
lemma inv_runOp (s : St) (op : Op) (h : Inv s) : Inv (runOp s op) := by
  unfold runOp
  split
  · rename_i s2 hs
    exact inv_step s op s2 hs h
  · exact h

/-- Running any sequence of operations preserves the invariants. -/
lemma inv_run (s : St) (ops : List Op) (h : Inv s) : Inv (run s ops) := by
  induction ops generalizing s with
  | nil => exact h
  | cons op tl ih => exact ih (runOp s op) (inv_runOp s op h)

lemma creditGuests_verified (actor remark : String) (amount : Int) :
    ∀ (gs : List String) (s : St) (v : String),
      ((creditGuests actor remark amount s gs).acct v).verified = (s.acct v).verified := by
  intro gs
  induction gs with
  | nil =>
    intro s v
    rfl
  | cons g tl ih =>
    intro s v
    rw [show creditGuests actor remark amount s (g :: tl)
        = creditGuests actor remark amount
            (creditPoints (appendTx s (eventTx actor remark amount g)) g amount) tl from rfl,
      ih, creditPoints_verified]
    rfl

/-- A successful operation never clears the verified flag of any account. -/
lemma verified_step (s : St) (op : Op) (s2 : St) (hs : step s op = Except.ok s2)
    (hV : VerifiedPresent s) (u : String) (hu : (s.acct u).verified = true) :
    (s2.acct u).verified = true := by
  cases op with
  | register actor w =>
    simp only [step] at hs
    unfold register at hs
    split at hs
    · cases hs
    · split at hs
      · cases hs
      · rename_i hPr
        cases hs
        show (Function.update s.acct w ⟨true, Role.regular, 0, false, false⟩ u).verified = true
        rw [Function.update_apply]
        by_cases h2 : u = w
        · exact absurd (h2 ▸ hV u hu) hPr
        · rw [if_neg h2]
          exact hu
  | createPurchase actor owner c b =>
    simp only [step] at hs
    unfold createPurchase at hs
    split at hs
    · cases hs
    · split at hs
      · cases hs
      · split at hs
        · cases hs
        · split at hs
          · cases hs
          · dsimp only [] at hs
            split at hs
            · cases hs
              exact hu
            · cases hs
              rw [creditPoints_verified]
              exact hu
  | approveSuspicious actor id =>
    simp only [step] at hs
    unfold approveSuspicious at hs
    split at hs
    · cases hs
    · split at hs
      · cases hs
      · split at hs
        · split at hs
          · cases hs
            rw [creditPoints_verified]
            exact hu
          · cases hs
        · cases hs
  | createAdjustment actor owner amount remark relatedId =>
    simp only [step] at hs
    unfold createAdjustment at hs
    split at hs
    · cases hs
    · split at hs
      · cases hs
      · split at hs
        · cases hs
        · split at hs
          · cases hs
          · split at hs
            · cases hs
            · cases hs
              rw [creditPoints_verified]
              exact hu
  | createTransfer sender recipient amount remark =>
    simp only [step] at hs
    unfold createTransfer at hs
    split at hs
    · cases hs
    · split at hs
      · cases hs
      · split at hs
        · cases hs
        · split at hs
          · cases hs
          · split at hs
            · cases hs
            · split at hs
              · cases hs
              · dsimp only [] at hs
                cases hs
                rw [creditPoints_verified]
                show ((creditPoints (appendTx s _) sender (-amount)).acct u).verified = true
                rw [creditPoints_verified]
                exact hu
  | requestRedemption owner amount remark =>
    simp only [step] at hs
    unfold requestRedemption at hs
    split at hs
    · cases hs
    · split at hs
      · cases hs
      · split at hs
        · cases hs
        · split at hs
          · cases hs
          · split at hs
            · cases hs
            · cases hs
              exact hu
  | processRedemption actor id =>
    simp only [step] at hs
    unfold processRedemption at hs
    split at hs
    · cases hs
    · split at hs
      · cases hs
      · split at hs
        · split at hs
          · cases hs
          · cases hs
            rw [creditPoints_verified]
            exact hu
        · cases hs
  | awardEventPoints actor eid amount target remark =>
    simp only [step] at hs
    unfold awardEventPoints at hs
    split at hs
    · cases hs
    · split at hs
      · cases hs
      · split at hs
        · cases hs
        · cases target with
          | some w =>
            have hs2 : (if w ∈ (s.events eid).guests then
                (if (s.events eid).pointsRemain < awardCost s eid amount (some w) then
                  (Except.error Err.validationError : Except Err St)
                else
                  Except.ok (creditGuests actor remark amount
                    (setRemain s eid
                      ((s.events eid).pointsRemain - awardCost s eid amount (some w)))
                    (awardGuests s eid (some w))))
              else Except.error Err.notFoundError) = Except.ok s2 := hs
            by_cases hMem : w ∈ (s.events eid).guests
            · rw [if_pos hMem] at hs2
              by_cases hCost :
                  (s.events eid).pointsRemain < awardCost s eid amount (some w)
              · rw [if_pos hCost] at hs2
                cases hs2
              · rw [if_neg hCost] at hs2
                cases hs2
                rw [creditGuests_verified]
                exact hu
            · rw [if_neg hMem] at hs2
              cases hs2
          | none =>
            have hs2 : (if (s.events eid).pointsRemain < awardCost s eid amount none then
                (Except.error Err.validationError : Except Err St)
              else
                Except.ok (creditGuests actor remark amount
                  (setRemain s eid ((s.events eid).pointsRemain - awardCost s eid amount none))
                  (awardGuests s eid none))) = Except.ok s2 := hs
            by_cases hCost : (s.events eid).pointsRemain < awardCost s eid amount none
            · rw [if_pos hCost] at hs2
              cases hs2
            · rw [if_neg hCost] at hs2
              cases hs2
              rw [creditGuests_verified]
              exact hu
  | setVerified actor target value =>
    simp only [step] at hs
    unfold setVerified at hs
    split at hs
    · cases hs
    · split at hs
      · cases hs
      · split at hs
        · cases hs
        · cases hs
          show (Function.update s.acct target
            { s.acct target with verified := true } u).verified = true
          rw [Function.update_apply]
          by_cases h2 : u = target
          · rw [if_pos h2]
          · rw [if_neg h2]
            exact hu
  | setRole actor target newRole =>
    simp only [step] at hs
    unfold setRole at hs
    split at hs
    · cases hs
    · split at hs
      · cases hs
      · split at hs
        · split at hs
          · cases hs
          · cases hs
            show (Function.update s.acct target
              { s.acct target with role := newRole } u).verified = true
            rw [Function.update_apply]
            by_cases h2 : u = target
            · rw [if_pos h2]
              exact h2 ▸ hu
            · rw [if_neg h2]
              exact hu
        · split at hs
          · cases hs
            show (Function.update s.acct target
              { s.acct target with role := newRole } u).verified = true
            rw [Function.update_apply]
            by_cases h2 : u = target
            · rw [if_pos h2]
              exact h2 ▸ hu
            · rw [if_neg h2]
              exact hu
          · cases hs
  | setSuspicious actor target value =>
    simp only [step] at hs
    unfold setSuspicious at hs
    split at hs
    · cases hs
    · split at hs
      · cases hs
      · cases hs
        show (Function.update s.acct target
          { s.acct target with suspicious := value } u).verified = true
        rw [Function.update_apply]
        by_cases h2 : u = target
        · rw [if_pos h2]
          exact h2 ▸ hu
        · rw [if_neg h2]
          exact hu
  | createEvent actor eid pointsTotal og gs =>
    simp only [step] at hs
    unfold createEvent at hs
    split at hs
    · cases hs
    · split at hs
      · cases hs
      · split at hs
        · cases hs
        · split at hs
          · cases hs
          · cases hs
            exact hu

lemma verified_runOp (s : St) (op : Op) (hV : VerifiedPresent s) (u : String)
    (hu : (s.acct u).verified = true) : ((runOp s op).acct u).verified = true := by
  unfold runOp
  split
  · rename_i s2 hs
    exact verified_step s op s2 hs hV u hu
  · exact hu

lemma verified_run (ops : List Op) (s : St) (hI : Inv s) (u : String)
    (hu : (s.acct u).verified = true) : ((run s ops).acct u).verified = true := by
  induction ops generalizing s with
  | nil => exact hu
  | cons op tl ih =>
    exact ih (runOp s op) (inv_runOp s op hI) (verified_runOp s op hI.2.2.2.1 u hu)

lemma creditGuests_points_not_mem (actor remark : String) (amount : Int) :
    ∀ (gs : List String) (s : St) (g : String), g ∉ gs →
      ((creditGuests actor remark amount s gs).acct g).points = (s.acct g).points := by
  intro gs
  induction gs with
  | nil =>
    intro s g _
    rfl
  | cons g2 tl ih =>
    intro s g hg
    rw [show creditGuests actor remark amount s (g2 :: tl)
        = creditGuests actor remark amount
            (creditPoints (appendTx s (eventTx actor remark amount g2)) g2 amount) tl from rfl,
      ih _ g (fun hm => hg (List.mem_cons_of_mem g2 hm)), creditPoints_points,
      if_neg (fun he => hg (by rw [he]; exact List.mem_cons_self g2 tl)), add_zero]
    rfl

lemma creditGuests_points_mem (actor remark : String) (amount : Int) :
    ∀ (gs : List String) (s : St) (g : String), gs.Nodup → g ∈ gs →
      ((creditGuests actor remark amount s gs).acct g).points
        = (s.acct g).points + amount := by
  intro gs
  induction gs with
  | nil =>
    intro s g _ hg
    exact absurd hg (List.not_mem_nil g)
  | cons g2 tl ih =>
    intro s g hnd hg
    rw [List.nodup_cons] at hnd
    rw [show creditGuests actor remark amount s (g2 :: tl)
        = creditGuests actor remark amount
            (creditPoints (appendTx s (eventTx actor remark amount g2)) g2 amount) tl from rfl]
    rcases List.mem_cons.mp hg with hge | hgm
    · subst hge
      rw [creditGuests_points_not_mem actor remark amount tl _ g hnd.1,
        creditPoints_points, if_pos rfl]
      rfl
    · have hne : g ≠ g2 := fun he => hnd.1 (he ▸ hgm)
      rw [ih _ g hnd.2 hgm, creditPoints_points, if_neg hne, add_zero]
      rfl

/-- Evaluation of processRedemption on an already-processed redemption. -/
lemma processRedemption_processed (s : St) (actor : String) (id : Nat) (t : Tx)
    (hRole : cashierPlus (s.acct actor).role = true) (hTx : s.txs id = some t)
    (hTy : t.type = TxType.redemption) (hProc : t.processed = true) :
    processRedemption s actor id = Except.error Err.conflictError := by
  unfold processRedemption
  rw [hRole, if_neg (by decide : ¬ ((! true) = true)), hTx]
  show (if t.type = TxType.redemption then
      (if t.processed then (Except.error Err.conflictError : Except Err St)
      else Except.ok (creditPoints
        (setTx s id { t with processed := true, processedBy := some actor })
        t.owner t.amount))
    else Except.error Err.validationError) = Except.error Err.conflictError
  rw [if_pos hTy, if_pos hProc]

/-- Claim C4 fails on the code: the promotion with startTime 10 and
endTime 20, inspected at time 5 (strictly before its start), is labelled
Active by getPromotionStatus, while the claim's window check says it is not
active. -/
theorem getPromotionStatus_ignores_startTime :
    getPromotionStatus ⟨some 10, some 20⟩ 5 = PromoStatus.active ∧
    claimActive ⟨some 10, some 20⟩ 5 = false := by
  constructor <;> rfl

/-- Claim C4 (amended): a promotion is labelled Active at T iff T ≤ endTime,
with startTime ignored entirely (a promotion whose startTime lies in the
future is still labelled Active); a promotion with no endTime is labelled
Unknown. -/
theorem getPromotionStatus_active_iff (st : Option Int) (e now : Int) :
    (getPromotionStatus ⟨st, some e⟩ now = PromoStatus.active ↔ now ≤ e) ∧
    getPromotionStatus ⟨st, none⟩ now = PromoStatus.unknown := by
  refine ⟨?_, rfl⟩
  show (if now > e then PromoStatus.expired else PromoStatus.active) = PromoStatus.active ↔ now ≤ e
  by_cases h : now > e
  · rw [if_pos h]
    constructor
    · intro hc
      exact absurd hc (by decide)
    · intro hc
      omega
  · rw [if_neg h]
    constructor
    · intro _
      omega
    · intro _
      rfl

/-- Claim C5: a role change is permitted iff the target is not the actor,
and either the actor is a superuser and the new role differs from the
target's current role, or the actor is a manager and the change is between
regular and cashier; all other role changes are denied. -/
theorem canPromoteTo_iff (cr : Role) (cid tid : Nat) (tr nr : Role) :
    canPromoteTo cr cid tid tr nr = true ↔
      (tid ≠ cid ∧
        ((cr = Role.superuser ∧ nr ≠ tr) ∨
         (cr = Role.manager ∧
           ((tr = Role.regular ∧ nr = Role.cashier) ∨
            (tr = Role.cashier ∧ nr = Role.regular))))) := by
  unfold canPromoteTo
  by_cases h : tid = cid
  · simp [h]
  · cases cr <;> simp [h]

/-- Claim C9: a 401 received while the path is not /login clears both
localStorage keys and navigates to /login; when already on /login the
storage and location are untouched; in every case the promise is rejected
with the original error. -/
theorem respInterceptor401_spec (err : ApiError) (st : BrowserState) :
    (err.status = some 401 → st.path ≠ "/login" →
      respInterceptorError err st =
        ({ token := none, tokenExpiry := none, path := "/login" }, err)) ∧
    (st.path = "/login" → respInterceptorError err st = (st, err)) ∧
    (respInterceptorError err st).2 = err := by
  refine ⟨?_, ?_, ?_⟩
  · intro h1 h2
    unfold respInterceptorError
    rw [if_pos ⟨h1, h2⟩]
  · intro h
    unfold respInterceptorError
    rw [if_neg]
    intro hc
    exact hc.2 h
  · unfold respInterceptorError
    by_cases h : err.status = some 401 ∧ st.path ≠ "/login" <;> simp [h]

/-- Witness for C9: a concrete 401 error on /dashboard clears storage and
navigates to /login. -/
theorem respInterceptor401_spec_witness :
    respInterceptorError ⟨some 401, "unauthorized"⟩ ⟨some "tok", some "exp", "/dashboard"⟩ =
      ({ token := none, tokenExpiry := none, path := "/login" },
        ⟨some 401, "unauthorized"⟩) :=
  (respInterceptor401_spec ⟨some 401, "unauthorized"⟩
    ⟨some "tok", some "exp", "/dashboard"⟩).1 rfl (by decide)

/-- Claim C10: isTokenExpired is total and returns true on every token the
decoder cannot decode, and fetchUser issues no API request (and so sets no
user) whenever the stored token is absent or expired. -/
theorem tokenExpiry_guard_spec (decodeExp : String → Option Int) (nowMs : Int) :
    (∀ token, decodeExp token = none → isTokenExpired decodeExp nowMs token = true) ∧
    (∀ storedToken : Option String,
      (storedToken = none ∨
        ∃ t, storedToken = some t ∧ isTokenExpired decodeExp nowMs t = true) →
      fetchUserProceeds decodeExp nowMs storedToken = false) := by
  constructor
  · intro token h
    unfold isTokenExpired
    rw [h]
  · intro storedToken h
    rcases h with h | ⟨t, ht, hexp⟩
    · rw [h]
      rfl
    · rw [ht]
      unfold fetchUserProceeds
      by_cases he : t = "" <;> simp [he, hexp]

/-- Witness for C10: with a decoder that rejects everything, the malformed
token "garbage" is reported expired and fetchUser does not proceed. -/
theorem tokenExpiry_guard_spec_witness :
    isTokenExpired (fun _ => none) 0 "garbage" = true ∧
    fetchUserProceeds (fun _ => none) 0 (some "garbage") = false :=
  ⟨(tokenExpiry_guard_spec (fun _ => none) 0).1 "garbage" rfl,
   (tokenExpiry_guard_spec (fun _ => none) 0).2 (some "garbage")
     (Or.inr ⟨"garbage", rfl,
       (tokenExpiry_guard_spec (fun _ => none) 0).1 "garbage" rfl⟩)⟩

/-- Claim C1: for every account and after every sequence of ledger
operations (from the initial state seeded with the bootstrap superuser),
the account's points balance equals the sum of the amounts of all its
transactions whose effect is currently applied; suspicious-unapproved
purchases and unprocessed redemptions are excluded from the sum by
appliedTx. -/
theorem conservation_holds (root : String) (ops : List Op) (u : String) :
    ((run (initSt root) ops).acct u).points = appliedSum (run (initSt root) ops) u :=
  (inv_run (initSt root) ops (inv_init root)).1 u

/-- Claim C2: requestRedemption for an account that already has an
unprocessed redemption fails with ConflictError (creating nothing, since a
failed operation returns no new state), and after every sequence of
operations an account has at most one pending redemption on the ledger. -/
theorem requestRedemption_single_pending :
    (∀ (s : St) (u : String) (amount : Int) (remark : String),
      (s.acct u).present = true → hasPending s u = true →
      requestRedemption s u amount remark = Except.error Err.conflictError) ∧
    (∀ (root : String) (ops : List Op), AtMostOnePending (run (initSt root) ops)) := by
  constructor
  · intro s u amount remark hPr hPend
    unfold requestRedemption
    rw [hPr, if_neg (by decide : ¬ ((! true) = true)), hPend, if_pos rfl]
  · intro root ops
    exact (inv_run (initSt root) ops (inv_init root)).2.2.1

/-- Witness for C2: in the concrete state where alice has a pending
redemption, a second request fails with ConflictError. -/
theorem requestRedemption_single_pending_witness :
    requestRedemption stPend "alice" 5 "" = Except.error Err.conflictError :=
  requestRedemption_single_pending.1 stPend "alice" 5 "" rfl (by decide)

/-- Claim C3: a successful processRedemption on a redemption of amount -a
decrements the owner's balance by a exactly once and marks the entry
processed with the processing cashier recorded; a second call on the same
id by any cashier fails with ConflictError and, failing, changes nothing. -/
theorem processRedemption_idempotent (s : St) (actor : String) (id : Nat) (t : Tx)
    (a : Int) (s2 : St) (hTx : s.txs id = some t) (hAmt : t.amount = -a)
    (hOk : processRedemption s actor id = Except.ok s2) :
    ((s2.acct t.owner).points = (s.acct t.owner).points - a) ∧
    (∃ t2, s2.txs id = some t2 ∧ t2.processed = true ∧ t2.processedBy = some actor) ∧
    (∀ actor2, cashierPlus (s2.acct actor2).role = true →
      processRedemption s2 actor2 id = Except.error Err.conflictError) := by
  unfold processRedemption at hOk
  split at hOk
  · cases hOk
  · split at hOk
    · cases hOk
    · rename_i t3 hTx3
      rw [hTx] at hTx3
      cases hTx3
      split at hOk
      · rename_i hTy
        split at hOk
        · cases hOk
        · cases hOk
          refine ⟨?_, ?_, ?_⟩
          · rw [creditPoints_points, if_pos rfl, hAmt]
            show (s.acct t.owner).points + -a = (s.acct t.owner).points - a
            ring
          · refine ⟨{ t with processed := true, processedBy := some actor }, ?_, rfl, rfl⟩
            rw [creditPoints_txs, setTx_txs, Function.update_same]
          · intro actor2 hRole2
            apply processRedemption_processed _ actor2 id
              { t with processed := true, processedBy := some actor } hRole2
            · rw [creditPoints_txs, setTx_txs, Function.update_same]
            · exact hTy
            · rfl
      · cases hOk

/-- Witness for C3: the cashier processes alice's pending 50-point
redemption; her balance drops by 50 and a repeat call raises
ConflictError. -/
theorem processRedemption_idempotent_witness :
    (stPend.txs 0 = some pendingRedTx ∧ pendingRedTx.amount = -50 ∧
      processRedemption stPend "cash" 0 = Except.ok stPendProcessed) ∧
    ((stPendProcessed.acct "alice").points = (stPend.acct "alice").points - 50 ∧
      (∃ t2, stPendProcessed.txs 0 = some t2 ∧ t2.processed = true ∧
        t2.processedBy = some "cash") ∧
      (∀ actor2, cashierPlus (stPendProcessed.acct actor2).role = true →
        processRedemption stPendProcessed actor2 0 = Except.error Err.conflictError)) :=
  ⟨⟨rfl, rfl, rfl⟩,
   processRedemption_idempotent stPend "cash" 0 pendingRedTx 50 stPendProcessed rfl rfl rfl⟩

/-- Claim C6: an event award of amount > 0 costs amount × 1 for a targeted
guest and amount × guestCount for all guests; it fails with ValidationError
whenever the total cost exceeds the remaining budget; on success the budget
drops by exactly the total cost and every targeted guest is credited the
amount, in one atomic step. -/
theorem awardEventPoints_spec (s : St) (actor : String) (eid : Nat) (amount : Int)
    (target : Option String) (remark : String)
    (hP : (s.events eid).present = true)
    (hAuth : (decide (actor ∈ (s.events eid).organizers)
      || managerPlus (s.acct actor).role) = true)
    (hAmt : 0 < amount)
    (hT : ∀ u, target = some u → u ∈ (s.events eid).guests) :
    (awardCost s eid amount target = amount * (match target with
        | some _ => (1 : Int)
        | none => ((s.events eid).guests.length : Int))) ∧
    ((s.events eid).pointsRemain < awardCost s eid amount target →
      awardEventPoints s actor eid amount target remark
        = Except.error Err.validationError) ∧
    (awardCost s eid amount target ≤ (s.events eid).pointsRemain →
      ∃ s2, awardEventPoints s actor eid amount target remark = Except.ok s2 ∧
        (s2.events eid).pointsRemain
          = (s.events eid).pointsRemain - awardCost s eid amount target ∧
        ((awardGuests s eid target).Nodup →
          ∀ g ∈ awardGuests s eid target,
            (s2.acct g).points = (s.acct g).points + amount)) := by
  cases target with
  | some u =>
    have hMem : u ∈ (s.events eid).guests := hT u rfl
    refine ⟨?_, ?_, ?_⟩
    · show amount * ((1 : Nat) : Int) = amount * 1
      rfl
    · intro hCost
      unfold awardEventPoints
      rw [hP, if_neg (by decide : ¬ ((! true) = true)), hAuth,
        if_neg (by decide : ¬ ((! true) = true)), if_neg (by omega : ¬ amount ≤ 0)]
      show (if u ∈ (s.events eid).guests then
          (if (s.events eid).pointsRemain < awardCost s eid amount (some u) then
            (Except.error Err.validationError : Except Err St)
          else
            Except.ok (creditGuests actor remark amount
              (setRemain s eid
                ((s.events eid).pointsRemain - awardCost s eid amount (some u)))
              (awardGuests s eid (some u))))
        else Except.error Err.notFoundError) = Except.error Err.validationError
      rw [if_pos hMem, if_pos hCost]
    · intro hCost
      refine ⟨creditGuests actor remark amount
        (setRemain s eid ((s.events eid).pointsRemain - awardCost s eid amount (some u)))
        (awardGuests s eid (some u)), ?_, ?_, ?_⟩
      · unfold awardEventPoints
        rw [hP, if_neg (by decide : ¬ ((! true) = true)), hAuth,
          if_neg (by decide : ¬ ((! true) = true)), if_neg (by omega : ¬ amount ≤ 0)]
        show (if u ∈ (s.events eid).guests then
            (if (s.events eid).pointsRemain < awardCost s eid amount (some u) then
              (Except.error Err.validationError : Except Err St)
            else
              Except.ok (creditGuests actor remark amount
                (setRemain s eid
                  ((s.events eid).pointsRemain - awardCost s eid amount (some u)))
                (awardGuests s eid (some u))))
          else Except.error Err.notFoundError)
          = Except.ok (creditGuests actor remark amount
              (setRemain s eid
                ((s.events eid).pointsRemain - awardCost s eid amount (some u)))
              (awardGuests s eid (some u)))
        rw [if_pos hMem, if_neg (by omega :
          ¬ (s.events eid).pointsRemain < awardCost s eid amount (some u))]
      · rw [creditGuests_events, setRemain_remain_self]
      · intro hnd g hg
        rw [creditGuests_points_mem actor remark amount _ _ g hnd hg, setRemain_acct]
  | none =>
    refine ⟨rfl, ?_, ?_⟩
    · intro hCost
      unfold awardEventPoints
      rw [hP, if_neg (by decide : ¬ ((! true) = true)), hAuth,
        if_neg (by decide : ¬ ((! true) = true)), if_neg (by omega : ¬ amount ≤ 0)]
      show (if (s.events eid).pointsRemain < awardCost s eid amount none then
          (Except.error Err.validationError : Except Err St)
        else
          Except.ok (creditGuests actor remark amount
            (setRemain s eid ((s.events eid).pointsRemain - awardCost s eid amount none))
            (awardGuests s eid none))) = Except.error Err.validationError
      rw [if_pos hCost]
    · intro hCost
      refine ⟨creditGuests actor remark amount
        (setRemain s eid ((s.events eid).pointsRemain - awardCost s eid amount none))
        (awardGuests s eid none), ?_, ?_, ?_⟩
      · unfold awardEventPoints
        rw [hP, if_neg (by decide : ¬ ((! true) = true)), hAuth,
          if_neg (by decide : ¬ ((! true) = true)), if_neg (by omega : ¬ amount ≤ 0)]
        show (if (s.events eid).pointsRemain < awardCost s eid amount none then
            (Except.error Err.validationError : Except Err St)
          else
            Except.ok (creditGuests actor remark amount
              (setRemain s eid ((s.events eid).pointsRemain - awardCost s eid amount none))
              (awardGuests s eid none)))
          = Except.ok (creditGuests actor remark amount
              (setRemain s eid ((s.events eid).pointsRemain - awardCost s eid amount none))
              (awardGuests s eid none))
        rw [if_neg (by omega :
          ¬ (s.events eid).pointsRemain < awardCost s eid amount none)]
      · rw [creditGuests_events, setRemain_remain_self]
      · intro hnd g hg
        rw [creditGuests_points_mem actor remark amount _ _ g hnd hg, setRemain_acct]

/-- Witness for C6: org awards 10 points to both guests of the concrete
event; the budget drops from 100 to 80 and each guest gains 10. -/
theorem awardEventPoints_spec_witness :
    ∃ s2, awardEventPoints stEvent "org" 5 10 none "prize" = Except.ok s2 ∧
      (s2.events 5).pointsRemain
        = (stEvent.events 5).pointsRemain - awardCost stEvent 5 10 none ∧
      ((awardGuests stEvent 5 none).Nodup →
        ∀ g ∈ awardGuests stEvent 5 none,
          (s2.acct g).points = (stEvent.acct g).points + 10) :=
  (awardEventPoints_spec stEvent "org" 5 10 none "prize" rfl (by decide) (by decide)
    (fun u h => Option.noConfusion h)).2.2 (by decide)

/-- Claim C7: a transfer fails with ValidationError when its amount exceeds
the sender's balance, the recipient is the sender, or the sender is
unverified; otherwise it atomically appends a paired debit and credit
transaction referencing each other through relatedId, debiting the sender
and crediting the recipient by exactly the amount. -/
theorem createTransfer_spec (s : St) (sender recipient : String) (amount : Int)
    (remark : String) (hS : (s.acct sender).present = true)
    (hR : (s.acct recipient).present = true) (hA : 0 < amount) :
    (((s.acct sender).points < amount ∨ recipient = sender ∨
        (s.acct sender).verified = false) →
      createTransfer s sender recipient amount remark
        = Except.error Err.validationError) ∧
    ((s.acct sender).verified = true → recipient ≠ sender →
      amount ≤ (s.acct sender).points →
      ∃ s2, createTransfer s sender recipient amount remark = Except.ok s2 ∧
        (∃ td tc, s2.txs s.nextId = some td ∧ s2.txs (s.nextId + 1) = some tc ∧
          td.owner = sender ∧ td.type = TxType.transfer ∧ td.amount = -amount ∧
          td.relatedId = some (s.nextId + 1) ∧
          tc.owner = recipient ∧ tc.type = TxType.transfer ∧ tc.amount = amount ∧
          tc.relatedId = some s.nextId) ∧
        (s2.acct sender).points = (s.acct sender).points - amount ∧
        (s2.acct recipient).points = (s.acct recipient).points + amount) := by
  constructor
  · intro hBad
    by_cases hv : (s.acct sender).verified = true
    · by_cases hself : recipient = sender
      · unfold createTransfer
        rw [hS, hR, hv, if_neg (by decide : ¬ ((! true) = true)),
          if_neg (by decide : ¬ ((! true) = true)),
          if_neg (by decide : ¬ ((! true) = true)), if_pos hself]
      · have hlt : (s.acct sender).points < amount := by
          rcases hBad with h | h | h
          · exact h
          · exact absurd h hself
          · rw [hv] at h
            cases h
        unfold createTransfer
        rw [hS, hR, hv, if_neg (by decide : ¬ ((! true) = true)),
          if_neg (by decide : ¬ ((! true) = true)),
          if_neg (by decide : ¬ ((! true) = true)), if_neg hself,
          if_neg (by omega : ¬ amount ≤ 0), if_pos hlt]
    · have hv2 : (s.acct sender).verified = false := bool_eq_false _ hv
      unfold createTransfer
      rw [hS, hR, hv2]
      rfl
  · intro hv hself hle
    refine ⟨creditPoints (appendTx (creditPoints (appendTx s
        ⟨sender, TxType.transfer, -amount, none, some (s.nextId + 1), false, false,
          sender, none, remark⟩) sender (-amount))
        ⟨recipient, TxType.transfer, amount, none, some s.nextId, false, false,
          sender, none, remark⟩) recipient amount, ?_, ?_, ?_, ?_⟩
    · unfold createTransfer
      rw [hS, hR, hv, if_neg (by decide : ¬ ((! true) = true)),
        if_neg (by decide : ¬ ((! true) = true)),
        if_neg (by decide : ¬ ((! true) = true)), if_neg hself,
        if_neg (by omega : ¬ amount ≤ 0),
        if_neg (by omega : ¬ (s.acct sender).points < amount)]
    · refine ⟨⟨sender, TxType.transfer, -amount, none, some (s.nextId + 1), false, false,
        sender, none, remark⟩,
        ⟨recipient, TxType.transfer, amount, none, some s.nextId, false, false,
          sender, none, remark⟩, ?_, ?_, rfl, rfl, rfl, rfl, rfl, rfl, rfl, rfl⟩
      · rw [creditPoints_txs, appendTx_txs, creditPoints_nextId, appendTx_nextId,
          Function.update_noteq (by omega : s.nextId ≠ s.nextId + 1),
          creditPoints_txs, appendTx_txs, Function.update_same]
      · rw [creditPoints_txs, appendTx_txs, creditPoints_nextId, appendTx_nextId,
          Function.update_same]
    · rw [creditPoints_points, if_neg (fun he => hself he.symm), add_zero]
      show ((creditPoints (appendTx s ⟨sender, TxType.transfer, -amount, none,
          some (s.nextId + 1), false, false, sender, none, remark⟩)
          sender (-amount)).acct sender).points = (s.acct sender).points - amount
      rw [creditPoints_points, if_pos rfl]
      show (s.acct sender).points + -amount = (s.acct sender).points - amount
      ring
    · rw [creditPoints_points, if_pos rfl]
      show ((creditPoints (appendTx s ⟨sender, TxType.transfer, -amount, none,
          some (s.nextId + 1), false, false, sender, none, remark⟩)
          sender (-amount)).acct recipient).points + amount
          = (s.acct recipient).points + amount
      rw [creditPoints_points, if_neg hself, add_zero]
      rfl

/-- Witness for C7: the verified sender moves 40 of their 100 points to the
recipient; two paired transfer entries appear and the balances move by 40. -/
theorem createTransfer_spec_witness :
    ∃ s2, createTransfer stTransfer "sndr" "rcpt" 40 "gift" = Except.ok s2 ∧
      (∃ td tc, s2.txs stTransfer.nextId = some td ∧
        s2.txs (stTransfer.nextId + 1) = some tc ∧
        td.owner = "sndr" ∧ td.type = TxType.transfer ∧ td.amount = -40 ∧
        td.relatedId = some (stTransfer.nextId + 1) ∧
        tc.owner = "rcpt" ∧ tc.type = TxType.transfer ∧ tc.amount = 40 ∧
        tc.relatedId = some stTransfer.nextId) ∧
      (s2.acct "sndr").points = (stTransfer.acct "sndr").points - 40 ∧
      (s2.acct "rcpt").points = (stTransfer.acct "rcpt").points + 40 :=
  (createTransfer_spec stTransfer "sndr" "rcpt" 40 "gift" rfl rfl (by decide)).2
    rfl (by decide) (by decide)

/-- Claim C8: the verified flag is monotone: once an account is verified
after some operations, it stays verified after any further role-permitted
operations; any manager+ may set verified to true on a registered account;
and every attempt to set verified to false is rejected. -/
theorem verified_monotone :
    (∀ (root : String) (ops more : List Op) (u : String),
      ((run (initSt root) ops).acct u).verified = true →
      ((run (initSt root) (ops ++ more)).acct u).verified = true) ∧
    (∀ (s : St) (actor target : String),
      managerPlus (s.acct actor).role = true → (s.acct target).present = true →
      ∃ s2, setVerified s actor target true = Except.ok s2 ∧
        (s2.acct target).verified = true) ∧
    (∀ (s : St) (actor target : String),
      setVerified s actor target false = Except.error Err.forbidden) := by
  refine ⟨?_, ?_, ?_⟩
  · intro root ops more u hu
    rw [show run (initSt root) (ops ++ more) = run (run (initSt root) ops) more by
      unfold run
      rw [List.foldl_append]]
    exact verified_run more (run (initSt root) ops)
      (inv_run (initSt root) ops (inv_init root)) u hu
  · intro s actor target hM hPr
    refine ⟨{ s with acct := Function.update s.acct target { s.acct target with verified := true } }, ?_, ?_⟩
    · unfold setVerified
      rw [hM, if_neg (by decide : ¬ ((! true) = true)),
        if_neg (by decide : ¬ (true = false)), hPr,
        if_neg (by decide : ¬ ((! true) = true))]
    · show (Function.update s.acct target
        { s.acct target with verified := true } target).verified = true
      rw [Function.update_same]
  · intro s actor target
    unfold setVerified
    by_cases h : (! managerPlus (s.acct actor).role) = true
    · rw [if_pos h]
    · rw [if_neg h, if_pos rfl]

/-- Witness for C8: alice is verified after the first two operations and is
still verified after an unverify attempt and a role change. -/
theorem verified_monotone_witness :
    ((run (initSt "root") opsVerify).acct "alice").verified = true ∧
    ((run (initSt "root") (opsVerify ++ opsAfter)).acct "alice").verified = true :=
  ⟨by decide, verified_monotone.1 "root" opsVerify opsAfter "alice" (by decide)⟩

end Pay2Win
